import Mathlib

/-!
Verification of the poker hand-history converter (src/main.py) against its
specification. The program is embedded shallowly: lines and texts are
`List Char`, the regular expressions of the source (all of which are flat
sequences of literal characters, capturing `([0-9]*)`, capturing `(.*)` and
one non-capturing `.*`) are token lists interpreted by a leftmost, greedy,
backtracking matcher that mirrors Python `re.search`, and `re.sub` with the
captured digit string as pattern is `subAll`. CPython float formatting is
modelled with exact rational arithmetic where the source multiplies by
0.00001; each such model states its validated domain in its doc comment.
-/

set_option maxRecDepth 100000

namespace Pspmhhc

/-- Regex tokens: every pattern in src/main.py is a flat sequence of literal
characters, a capturing greedy `([0-9]*)`, a capturing greedy `(.*)` or a
non-capturing greedy `.*` (`.` does not match a newline, DOTALL is off). -/
inductive RTok where
  | lit : Char → RTok
  | digits : RTok
  | dotStar : RTok
  | dotStarN : RTok

/-- All splits (p, rest) of l where p is a run of characters satisfying pred,
ordered by decreasing length of p: the order a greedy star tries them. -/
def splitsDesc (pred : Char → Bool) : List Char → List (List Char × List Char)
  | [] => [([], [])]
  | c :: cs =>
      if pred c then
        ((splitsDesc pred cs).map (fun pr => (c :: pr.1, pr.2))) ++ [([], c :: cs)]
      else [([], c :: cs)]

/-- First success of f over the list, in order: the backtracking search order. -/
def firstSome {α β : Type} (f : α → Option β) : List α → Option β
  | [] => none
  | a :: as => match f a with
               | some b => some b
               | none => firstSome f as

/-- Match the token sequence against a prefix of l (trailing input is ignored,
as in `re.search`), returning the captured groups in order. Stars are tried
longest-first with full backtracking, exactly Python greedy preference. -/
def matchToks : List RTok → List Char → Option (List (List Char))
  | [], _ => some []
  | RTok.lit _ :: _, [] => none
  | RTok.lit c :: ts, x :: xs => if x = c then matchToks ts xs else none
  | RTok.digits :: ts, l =>
      firstSome (fun pr => (matchToks ts pr.2).map (fun gs => pr.1 :: gs))
        (splitsDesc Char.isDigit l)
  | RTok.dotStar :: ts, l =>
      firstSome (fun pr => (matchToks ts pr.2).map (fun gs => pr.1 :: gs))
        (splitsDesc (fun c => c ≠ '\n') l)
  | RTok.dotStarN :: ts, l =>
      firstSome (fun pr => matchToks ts pr.2)
        (splitsDesc (fun c => c ≠ '\n') l)

/-- Python `re.search`: try the pattern at each start position from the left,
return the groups of the first (leftmost) match. -/
def reSearch (ts : List RTok) : List Char → Option (List (List Char))
  | [] => matchToks ts []
  | c :: xs => match matchToks ts (c :: xs) with
               | some gs => some gs
               | none => reSearch ts xs

/-- Python `re.sub(s, r, l)` for a pattern s that is a literal string (the
captured digit runs substituted by `_convert` are such): replace every
occurrence of s in l, left to right, never rescanning a replacement. Driven
by fuel; `subAll` below supplies fuel `l.length`, which suffices whenever s
is nonempty (`_convert` only substitutes nonempty digit captures). -/
def subAllF (s r : List Char) : Nat → List Char → List Char
  | 0, l => l
  | _ + 1, [] => []
  | fuel + 1, c :: cs =>
      if s.isPrefixOf (c :: cs) then r ++ subAllF s r fuel (List.drop (s.length - 1) cs)
      else c :: subAllF s r fuel cs

/-- Replace every occurrence of s in l by r (see `subAllF`). -/
def subAll (s r l : List Char) : List Char := subAllF s r l.length l

/-- Lowercase source: `str(int(g))` inverse — the number denoted by a digit run. -/
def natOfDigits (l : List Char) : Nat := l.foldl (fun a c => 10 * a + (c.toNat - 48)) 0

/-- Character of one decimal digit d (0 ≤ d ≤ 9). -/
def digitChar (d : Nat) : Char := Char.ofNat (48 + d)

/-- Decimal digits of n, most significant first, by fuel (fuel n suffices for
n ≥ 1 since n / 10 < n). -/
def natDigitsAux : Nat → Nat → List Char
  | 0, _ => []
  | fuel + 1, n => if n = 0 then [] else natDigitsAux fuel (n / 10) ++ [digitChar (n % 10)]

/-- Decimal rendering of n, as Python renders a nonnegative integer. -/
def natDigits (n : Nat) : List Char := if n = 0 then ['0'] else natDigitsAux n n

/-- Rounded cents of the amount q * 0.00001: models the 2-decimal rounding done
by CPython `"{:.2f}".format(q * 0.00001)`. For every q < 3000000 with
q % 1000 ≠ 500 this equals the CPython result (checked exhaustively); at the
exact halfway points q % 1000 = 500 CPython rounds by the nearest double,
whose direction depends on the bits of q * 0.00001, and this model rounds up. -/
def cents (q : Nat) : Nat := (q + 500) / 1000

/-- Two zero-padded decimal digits of m < 100: the fractional part printed by
`"{:.2f}"`. -/
def pad2 (m : Nat) : List Char := [digitChar (m / 10), digitChar (m % 10)]

/-- Models `"{:.2f}".format(q * 0.00001)` (see `cents` for the domain). -/
def format2f (q : Nat) : List Char := natDigits (cents q / 100) ++ '.' :: pad2 (cents q % 100)

/-- Source `.replace('.00', '')` on the formatted amount. -/
def stripZeroCents (l : List Char) : List Char := subAll ['.', '0', '0'] [] l

/-- Source `"${:.2f}".format(amount).replace('.00', '')`: the substituted
currency text for the chip quantity q. -/
def moneyStr (q : Nat) : List Char := '$' :: stripZeroCents (format2f q)

/-- Literal characters of a string as regex tokens. -/
def lits (s : String) : List RTok := s.toList.map RTok.lit

/-- Source regex `\(([0-9]*) in chips\)`. -/
def ruleChips : List RTok := RTok.lit '(' :: RTok.digits :: lits " in chips)"

/-- Source regex `posts (.*) blind ([0-9]*)`. -/
def rulePostsBlind : List RTok := lits "posts " ++ RTok.dotStar :: lits " blind " ++ [RTok.digits]

/-- Source regex `: bets ([0-9]*)`. -/
def ruleBets : List RTok := lits ": bets " ++ [RTok.digits]

/-- Source regex `: calls ([0-9]*)`. -/
def ruleCalls : List RTok := lits ": calls " ++ [RTok.digits]

/-- Source regex `: raises ([0-9]*) to ([0-9]*)`. -/
def ruleRaises : List RTok := lits ": raises " ++ RTok.digits :: lits " to " ++ [RTok.digits]

/-- Source regex ` collected ([0-9]*) from pot`. -/
def ruleCollectedFromPot : List RTok := lits " collected " ++ RTok.digits :: lits " from pot"

/-- Source regex ` collected \(([0-9]*)\)`. -/
def ruleCollectedParen : List RTok := lits " collected (" ++ [RTok.digits, RTok.lit ')']

/-- Source regex `Total pot ([0-9]*) \| Rake ([0-9]*)`. -/
def ruleTotalPot : List RTok := lits "Total pot " ++ RTok.digits :: lits " | Rake " ++ [RTok.digits]

/-- Source regex `and won \(([0-9]*)\) with`. -/
def ruleWonWith : List RTok := lits "and won (" ++ RTok.digits :: lits ") with"

/-- Source regex `Uncalled bet \(([0-9]*)\) returned to`. -/
def ruleUncalled : List RTok :=
  lits "Uncalled bet (" ++ RTok.digits :: lits ") returned to"

/-- Source regex `posts small & big blinds ([0-9]*)`. -/
def ruleSmallBig : List RTok := lits "posts small & big blinds " ++ [RTok.digits]

/-- The fixed ordered rule list of `PokerStarsHand.print`, lines 155-165. -/
def ruleList : List (List RTok) :=
  [ruleChips, rulePostsBlind, ruleBets, ruleCalls, ruleRaises, ruleCollectedFromPot,
   ruleCollectedParen, ruleTotalPot, ruleWonWith, ruleUncalled, ruleSmallBig]

/-- The loop body of `PokerStarsHand._convert`: for each captured group, in
order, when it is a nonempty digit run (Python `str.isdigit`), substitute its
scaled currency text for every occurrence of the group's text in the line. -/
def convertGroups (gs : List (List Char)) (line : List Char) : List Char :=
  gs.foldl
    (fun ln g =>
      if !g.isEmpty && g.all Char.isDigit then subAll g (moneyStr (natOfDigits g)) ln else ln)
    line

/-- Source `PokerStarsHand._convert(regex, line)`. -/
def convert (ts : List RTok) (line : List Char) : List Char :=
  match reSearch ts line with
  | none => line
  | some gs => convertGroups gs line

/-- One body line through the eleven `_convert` calls of `print`, in order. -/
def convertLine (line : List Char) : List Char :=
  ruleList.foldl (fun ln ts => convert ts ln) line

/-- Source `HandError(msg, id='')`: a message and an optional record id. -/
structure HandError where
  msg : List Char
  id : List Char
deriving DecidableEq

/-- Source `HandError.__str__`: the diagnostic line for the error. -/
def handErrorStr (e : HandError) : List Char :=
  if e.id = [] then e.msg else e.msg ++ " -> id: ".toList ++ e.id

/-- Exceptions the per-record pipeline can raise: a `HandError`, or the Python
`IndexError` from `splitlines()[1]` on a block with fewer than two lines. -/
inductive PyError where
  | hand : HandError → PyError
  | indexError : PyError
deriving DecidableEq

/-- Source `Network` tags. -/
inductive Network where
  | unknown : Network
  | pokerstars : Network
deriving DecidableEq

/-- Python `str.splitlines` restricted to the line breaks that occur here:
`\n`, `\r\n` and `\r`; a trailing break yields no extra empty line. -/
def splitlinesAux (cur : List Char) : List Char → List (List Char)
  | [] => if cur = [] then [] else [cur.reverse]
  | '\r' :: '\n' :: rest => cur.reverse :: splitlinesAux [] rest
  | '\n' :: rest => cur.reverse :: splitlinesAux [] rest
  | '\r' :: rest => cur.reverse :: splitlinesAux [] rest
  | c :: rest => splitlinesAux (c :: cur) rest

/-- Source `self.text.getvalue().splitlines()`. -/
def splitlines (text : List Char) : List (List Char) := splitlinesAux [] text

/-- Source `splitlines()[i]`: out of range raises Python `IndexError`. -/
def lineAt (text : List Char) (i : Nat) : Except PyError (List Char) :=
  match (splitlines text).get? i with
  | some l => Except.ok l
  | none => Except.error PyError.indexError

/-- Group i (0-based; Python group i+1) of a match's capture list. -/
def grp (gs : List (List Char)) (i : Nat) : List Char := gs.getD i []

/-- Python substring test `s.find(sub) != -1`: sub occurs somewhere in s. -/
def containsSub (sub : List Char) : List Char → Bool
  | [] => sub.isPrefixOf []
  | c :: cs => sub.isPrefixOf (c :: cs) || containsSub sub cs

/-- Source `Hand._parse_network`: line 0 selects POKERSTARS when it contains
the substring `PokerStars` (`line.find('PokerStars') != -1`), otherwise a
`HandError` with no id is raised. -/
def parse_network (text : List Char) : Except PyError Network :=
  match lineAt text 0 with
  | Except.error e => Except.error e
  | Except.ok line =>
      if containsSub ("PokerStars".toList) line then Except.ok Network.pokerstars
      else Except.error (PyError.hand ⟨ "Unknown network: ".toList ++ line, []⟩)

/-- Source regex `Hand #([0-9]*):` of `_parse_id`. -/
def idToks : List RTok := lits "Hand #" ++ [RTok.digits, RTok.lit ':']

/-- Source regex `Table '(.*)' (.*) \((.*)\) Seat #([0-9]*) is the button`. -/
def tableToks : List RTok :=
  lits "Table '" ++ RTok.dotStar :: lits "' " ++ RTok.dotStar :: lits " (" ++
    RTok.dotStar :: lits ") Seat #" ++ RTok.digits :: lits " is the button"

/-- Source regex `Hold'em (.*) \(([0-9]*)/([0-9]*).*\) - (.*)`. -/
def handHeaderToks : List RTok :=
  lits "Hold'em " ++ RTok.dotStar :: lits " (" ++
    RTok.digits :: RTok.lit '/' :: RTok.digits :: RTok.dotStarN :: lits ") - " ++ [RTok.dotStar]

/-- Source `PokerStarsHand._parse_id`: line 0 must produce the numeric id;
failure raises a `HandError` carrying no id (`self.id` is still None). -/
def parse_id (text : List Char) : Except PyError (List Char) :=
  match lineAt text 0 with
  | Except.error e => Except.error e
  | Except.ok line =>
      match reSearch idToks line with
      | some gs => Except.ok (grp gs 0)
      | none => Except.error (PyError.hand ⟨ "Unable to parse hand id: ".toList ++ line, []⟩)

/-- Source `PokerStarsHand._parse_table_header`: line 1 must match the table
regex and its third group must equal `Play Money`; on success the result is
(table_name, table_size, btn) and `play_money` is True. Both failures raise a
`HandError` carrying the already-parsed id. A block with fewer than two lines
raises Python `IndexError` at `splitlines()[1]`, modelled by `lineAt`. -/
def parse_table_header (text : List Char) (id : List Char) :
    Except PyError (List Char × List Char × List Char) :=
  match lineAt text 1 with
  | Except.error e => Except.error e
  | Except.ok line =>
      match reSearch tableToks line with
      | some gs =>
          if grp gs 2 = "Play Money".toList then Except.ok (grp gs 0, grp gs 1, grp gs 3)
          else
            Except.error (PyError.hand ⟨ "Unknown play money table header: ".toList ++ line, id⟩)
      | none =>
          Except.error (PyError.hand ⟨ "Unable to parse table header: ".toList ++ line, id⟩)

/-- Models CPython `str(q * 0.00001)` of `_parse_hand_header` (lines 107-108):
the shortest decimal representation of the nearest double. Modelled as the exact decimal expansion of q / 100000
(integer part, then the fractional digits with trailing zeros stripped, with
Python's trailing `.0` when the fraction is zero). This equals CPython
whenever the two float roundings in `q * 0.00001` are exact in that many
digits — verified for the stake values appearing in the theorems below
(100 ↦ `0.001`, 200 ↦ `0.002`); for q < 10 CPython would use scientific
notation, and for some q the float noise shows (150000 ↦
`1.5000000000000002`), so theorems about this model stay on verified inputs. -/
def floatStrScaled (q : Nat) : List Char :=
  let i := q / 100000
  let r := q % 100000
  if r = 0 then natDigits i ++ ['.', '0']
  else
    natDigits i ++ '.' ::
      ((List.replicate (5 - (natDigits r).length) '0' ++ natDigits r).reverse.dropWhile
          (fun c => c = '0')).reverse

/-- Source `PokerStarsHand._parse_hand_header`: line 0 must match the header
regex; the two stakes are stored as blind strings via `str(int(g) * 0.00001)`,
the game variant must be one of the three named ones, the trailing group is
the timestamp. Result: (sb, bb, game_type, date_time_stamp). Failures raise a
`HandError` carrying the already-parsed id. -/
def parse_hand_header (text : List Char) (id : List Char) :
    Except PyError (List Char × List Char × List Char × List Char) :=
  match lineAt text 0 with
  | Except.error e => Except.error e
  | Except.ok line =>
      match reSearch handHeaderToks line with
      | some gs =>
          if grp gs 0 = "No Limit".toList ∨ grp gs 0 = "Pot Limit".toList ∨
              grp gs 0 = "Fixed Limit".toList then
            Except.ok (floatStrScaled (natOfDigits (grp gs 1)),
              floatStrScaled (natOfDigits (grp gs 2)), grp gs 0, grp gs 3)
          else Except.error (PyError.hand ⟨ "Game type not recognised: ".toList ++ line, id⟩)
      | none =>
          Except.error (PyError.hand ⟨ "Unable to parse blind amounts: ".toList ++ line, id⟩)

/-- The successfully parsed fields of a PokerStars hand record. -/
structure PSHand where
  id : List Char
  table_name : List Char
  table_size : List Char
  btn : List Char
  sb : List Char
  bb : List Char
  game_type : List Char
  date_time_stamp : List Char
deriving DecidableEq

/-- Source `PokerStarsHand.parse`: `_parse_id`, then `_parse_table_header`,
then `_parse_hand_header`, in that order. -/
def parsePS (text : List Char) : Except PyError PSHand :=
  match parse_id text with
  | Except.error e => Except.error e
  | Except.ok id =>
      match parse_table_header text id with
      | Except.error e => Except.error e
      | Except.ok (table_name, table_size, btn) =>
          match parse_hand_header text id with
          | Except.error e => Except.error e
          | Except.ok (sb, bb, game_type, dts) =>
              Except.ok ⟨id, table_name, table_size, btn, sb, bb, game_type, dts⟩

/-- Python `str.strip()`: whitespace removed from both ends. -/
def stripChars (l : List Char) : List Char :=
  ((l.dropWhile Char.isWhitespace).reverse.dropWhile Char.isWhitespace).reverse

/-- Iterating a `StringIO` (`for line in self.text`): the lines of the text,
each including its terminating newline; a final unterminated piece is yielded
as is. -/
def ioLinesAux (cur : List Char) : List Char → List (List Char)
  | [] => if cur = [] then [] else [cur.reverse]
  | '\n' :: rest => ('\n' :: cur).reverse :: ioLinesAux [] rest
  | c :: rest => ioLinesAux (c :: cur) rest

/-- All lines the `print` loop iterates over (see `ioLinesAux`). -/
def ioLines (text : List Char) : List (List Char) := ioLinesAux [] text

/-- The body part of `PokerStarsHand.print`: every line after the first two is
converted, stripped and printed (each `print` appends one line break), then
`print('\n\n')` emits the three line breaks that end the record. -/
def printBody (bodyLines : List (List Char)) : List Char :=
  bodyLines.foldr (fun ln acc => stripChars (convertLine ln) ++ '\n' :: acc) ("\n\n\n".toList)

/-- Source `PokerStarsHand.print`: the text the record writes to standard
output — the two reconstructed header lines, the converted body lines, and
the record terminator. -/
def printHand (h : PSHand) (text : List Char) : List Char :=
  "PokerStars Hand #".toList ++ h.id ++ ":  Hold'em ".toList ++ h.game_type ++
      " ($".toList ++ h.sb ++ "/$".toList ++ h.bb ++ " USD) - ".toList ++ h.date_time_stamp ++
    '\n' ::
      ("Table '".toList ++ h.table_name ++ "' ".toList ++ h.table_size ++
        " Seat #".toList ++ h.btn ++ " is the button".toList ++
        '\n' :: printBody ((ioLines text).drop 2))

/-- Source `HandHistory.read_hand`: the stream is the list of lines
`readline` still has to return (each nonempty, ending in a line break except
possibly the last; the empty string signalling end of stream is the end of
the list). Accumulates non-blank lines into text; a blank line (`\n` or
`\r\n`) with text accumulated ends the block; end of stream returns None even
when text has accumulated. Returns the block and the remaining stream. -/
def read_hand (stream : List (List Char)) (text : List Char) :
    Option (List Char × List (List Char)) :=
  match stream with
  | [] => none
  | line :: rest =>
      if line ≠ "\n".toList ∧ line ≠ "\r\n".toList then read_hand rest (text ++ line)
      else if text ≠ [] then some (text, rest)
      else read_hand rest text

/-- One block through the body of the driver loop (lines 182-186): network
detection (which raises on an unrecognized network; when it returns, the class
is swapped to `PokerStarsHand`), parse, then print. The result is the text the
record writes to standard output. -/
def processHand (text : List Char) : Except PyError (List Char) :=
  match parse_network text with
  | Except.error e => Except.error e
  | Except.ok _ =>
      match parsePS text with
      | Except.error e => Except.error e
      | Except.ok h => Except.ok (printHand h text)

/-- Source `'{} hands, {} errors'.format(...)`: the summary diagnostic line. -/
def summaryLine (hands errors : Nat) : List Char :=
  natDigits hands ++ " hands, ".toList ++ natDigits errors ++ " errors".toList

/-- Outcome of the driver loop: `finished hands errors out diags` when the
stream was exhausted (diags are the diagnostic lines written to stderr, the
summary last), or `crashed hands errors out diags e` when an exception other
than `HandError` escaped the `except HandError` handler and terminated the
run (no summary is written, no later block is processed). -/
inductive RunResult where
  | finished : Nat → Nat → List Char → List (List Char) → RunResult
  | crashed : Nat → Nat → List Char → List (List Char) → PyError → RunResult
deriving DecidableEq

/-- The driver loop of `main` (lines 177-190), by fuel: read a block (which
increments the hands counter on every successful yield), process it, catch
`HandError` only (one diagnostic line, error counter, continue); any other
exception crashes the run. Fuel `stream.length + 1` always suffices since
every yielded block consumes at least one stream line. -/
def mainLoopF : Nat → List (List Char) → Nat → Nat → List Char → List (List Char) → RunResult
  | 0, _, hands, errors, out, diags => RunResult.finished hands errors out diags
  | fuel + 1, stream, hands, errors, out, diags =>
      match read_hand stream [] with
      | none => RunResult.finished hands errors out (diags ++ [summaryLine hands errors])
      | some (text, rest) =>
          match processHand text with
          | Except.ok o => mainLoopF fuel rest (hands + 1) errors (out ++ o) diags
          | Except.error (PyError.hand e) =>
              mainLoopF fuel rest (hands + 1) (errors + 1) out (diags ++ [handErrorStr e])
          | Except.error PyError.indexError =>
              RunResult.crashed (hands + 1) errors out diags PyError.indexError

/-- Source `main` on an already-opened stream of lines. -/
def runMain (stream : List (List Char)) : RunResult :=
  mainLoopF (stream.length + 1) stream 0 0 [] []

/-- Number of consecutive line breaks at the end of an output text. -/
def trailingNewlines (l : List Char) : Nat :=
  (l.reverse.takeWhile (fun c => c = '\n')).length

/-- The block of the specification's end-to-end example: the two header lines
and one body line. -/
def exampleBlock : List Char :=
  ("Hand #100:  Hold'em No Limit (100/200 USD) - 2024-01-01 00:00:00 UTC\n" ++
   "Table 'Alpha' 6-max (Play Money) Seat #3 is the button\n" ++
   "Seat 1: posts small blind 100\n").toList

/-- The fields `PokerStarsHand.parse` extracts from `exampleBlock`. -/
def exampleHand : PSHand :=
  ⟨ "100".toList, "Alpha".toList, "6-max".toList, "3".toList, "0.001".toList,
    "0.002".toList, "No Limit".toList, "2024-01-01 00:00:00 UTC".toList⟩

/-- The text `PokerStarsHand.print` actually emits for `exampleBlock`. -/
def exampleOut : List Char :=
  ("PokerStars Hand #100:  Hold'em No Limit ($0.001/$0.002 USD) - " ++
   "2024-01-01 00:00:00 UTC\n" ++
   "Table 'Alpha' 6-max Seat #3 is the button\n" ++
   "Seat 1: posts small blind $0\n\n\n\n").toList

/-- True when a search of the rule on the line yields no nonempty all-digit
capture, so that `_convert`'s loop substitutes nothing. -/
def noDigitCapture (ts : List RTok) (l : List Char) : Bool :=
  match reSearch ts l with
  | none => true
  | some gs => gs.all (fun g => !(!g.isEmpty && g.all Char.isDigit))

/-- True exactly for the messages of the two `_parse_hand_header` failures:
unrecognized game type, and a line 0 that fails the stake/timestamp regex. -/
def isHandHeaderErr (m : List Char) : Bool :=
  (("Game type not recognised: ").toList.isPrefixOf m) ||
  (("Unable to parse blind amounts: ").toList.isPrefixOf m)

/-- The input stream whose first block is a PokerStars block of a single
line: network detection succeeds, `_parse_id` succeeds, and
`_parse_table_header` hits `splitlines()[1]` with only one line. -/
def crashStream : List (List Char) :=
  [("PokerStars Hand #9: only one line\n").toList, ("\n").toList,
   ("PokerStars Hand #10: x\n").toList, ("\n").toList]

/-- A body line on which the collected-from-pot phrase occurs twice. -/
def collectedTwice : List Char := ("P collected 5 from pot collected 7 from pot").toList

/-- A PokerStars block whose id parses but whose table header line is junk. -/
def badTableBlock : List Char := ("PokerStars Hand #77: x\nbadtable\n").toList

/-- A PokerStars block whose id parses but whose line 1 fails the table
pattern and whose line 0 also fails the stake/game-type pattern. -/
def junkBlock : List Char := ("PokerStars Hand #7: junk\njunk\n").toList

end Pspmhhc

namespace Pspmhhc

/-- C1: counterexample. On the specification's end-to-end example block the
emitted body line is not `Seat 1: posts small blind $0.001`: the full output
is `exampleOut`, in which that claimed line does not occur (100 chips scale to
0.001, `"{:.2f}"` renders 0.00, and `.replace('.00', '')` leaves `$0`). -/
theorem c1_cex :
    parsePS exampleBlock = Except.ok exampleHand ∧
    printHand exampleHand exampleBlock = exampleOut ∧
    containsSub ("Seat 1: posts small blind $0.001").toList exampleOut = false :=
  ⟨rfl, rfl, rfl⟩

/-- C1 (amended): on the example block the header stakes do render as
`$0.001/$0.002`, but the emitted body line is `Seat 1: posts small blind $0`
(the scaling rule of section 4.4 drops the zero decimal portion). -/
theorem c1_amended :
    parsePS exampleBlock = Except.ok exampleHand ∧
    printHand exampleHand exampleBlock = exampleOut ∧
    containsSub ("($0.001/$0.002 USD)").toList exampleOut = true ∧
    containsSub ("Seat 1: posts small blind $0\n").toList exampleOut = true :=
  ⟨rfl, rfl, rfl, rfl⟩

/-- C2: counterexample. The stored blind strings do not follow the body
display format: for the stake 100 the body rule renders `$0` while the header
emits `$0.001` (the blind string is `str(100 * 0.00001)`, not the shared
scaling rule's two-decimal format). -/
theorem c2_cex :
    parsePS exampleBlock = Except.ok exampleHand ∧
    moneyStr 100 = ("$0").toList ∧
    '$' :: exampleHand.sb = ("$0.001").toList ∧
    '$' :: exampleHand.sb ≠ moneyStr 100 :=
  ⟨rfl, rfl, rfl, by decide⟩

/-- C2 (amended): each integer stake is stored via CPython `str(q * 0.00001)`
(Python float shortest-repr decimal, modelled by `floatStrScaled`), and the
header merely prefixes `$`; this does not follow the section 4.4 display
format — at stakes 100 and 200 the blind strings are `0.001` and `0.002`
while the body rule would render `$0` for both. -/
theorem c2_amended :
    parsePS exampleBlock = Except.ok exampleHand ∧
    exampleHand.sb = floatStrScaled 100 ∧
    exampleHand.bb = floatStrScaled 200 ∧
    floatStrScaled 100 = ("0.001").toList ∧
    floatStrScaled 200 = ("0.002").toList ∧
    '$' :: floatStrScaled 100 ≠ moneyStr 100 ∧
    '$' :: floatStrScaled 200 ≠ moneyStr 200 :=
  ⟨rfl, rfl, rfl, rfl, rfl, by decide, by decide⟩

/-- C3: the code, not the claim, is at fault. The driver catches only
`HandError`; on a recognized block with fewer than two lines,
`_parse_table_header` raises `IndexError` at `splitlines()[1]`, which escapes
the `except HandError` handler: the run terminates after the first block
(crashed, no diagnostic line, no summary), and the second block is never
processed — had the error been caught, the result would have been
`finished 2 ...`. -/
theorem c3_crash :
    runMain crashStream = RunResult.crashed 1 0 [] [] PyError.indexError ∧
    parse_network ("PokerStars Hand #9: only one line\n").toList =
      Except.ok Network.pokerstars ∧
    parse_id ("PokerStars Hand #9: only one line\n").toList = Except.ok ("9").toList ∧
    parse_table_header ("PokerStars Hand #9: only one line\n").toList ("9").toList =
      Except.error PyError.indexError :=
  ⟨rfl, rfl, rfl, rfl⟩

/-- C5: counterexample. The Amount Converter is not idempotent on its own
output: on a line with two collected-from-pot phrases the first application
converts only the first match's amount, and the second application then
matches the remaining bare amount and alters the line again. -/
theorem c5_cex :
    convertLine collectedTwice = ("P collected $0 from pot collected 7 from pot").toList ∧
    convertLine (convertLine collectedTwice) =
      ("P collected $0 from pot collected $0 from pot").toList ∧
    convertLine (convertLine collectedTwice) ≠ convertLine collectedTwice :=
  ⟨rfl, rfl, by decide⟩

/-- C6: counterexample. A final block whose content is not followed by a
blank separator line is not yielded: `read_hand` returns None at end of
stream even though content has accumulated, and the driver neither counts nor
emits nor diagnoses the block. -/
theorem c6_cex :
    read_hand [("PokerStars Hand #1: x\n").toList] [] = none ∧
    runMain [("PokerStars Hand #1: x\n").toList] =
      RunResult.finished 0 0 [] [summaryLine 0 0] :=
  ⟨rfl, rfl⟩

/-- C9: counterexample. A successfully processed record is not followed by
exactly two consecutive line breaks: the emitted text of the example record
ends in four (the final printed line's break plus the three of
`print('\n\n')`), i.e. three blank lines, not one. -/
theorem c9_cex :
    trailingNewlines (printHand exampleHand exampleBlock) = 4 ∧
    trailingNewlines (printHand exampleHand exampleBlock) ≠ 2 :=
  ⟨rfl, by decide⟩

/-- Fuel at least the length of the input makes `subAllF` fuel-independent. -/
theorem subAllF_congr (s r : List Char) :
    ∀ (f g : Nat) (l : List Char), l.length ≤ f → l.length ≤ g →
      subAllF s r f l = subAllF s r g l := by
  intro f
  induction f with
  | zero =>
      intro g l hf _
      have : l = [] := List.eq_nil_of_length_eq_zero (Nat.le_zero.mp hf)
      subst this
      cases g <;> rfl
  | succ f ih =>
      intro g l hf hg
      cases l with
      | nil => cases g <;> rfl
      | cons c cs =>
          cases g with
          | zero => exact absurd hg (by simp)
          | succ g =>
              show (if s.isPrefixOf (c :: cs) then _ else _) = if s.isPrefixOf (c :: cs) then _ else _
              by_cases hp : s.isPrefixOf (c :: cs)
              · simp only [if_pos hp]
                have h1 : (List.drop (s.length - 1) cs).length ≤ f := by
                  have := List.length_drop (s.length - 1) cs
                  simp at hf
                  omega
                have h2 : (List.drop (s.length - 1) cs).length ≤ g := by
                  have := List.length_drop (s.length - 1) cs
                  simp at hg
                  omega
                rw [ih g _ h1 h2]
              · simp only [if_neg hp]
                have h1 : cs.length ≤ f := by simp at hf; omega
                have h2 : cs.length ≤ g := by simp at hg; omega
                rw [ih g cs h1 h2]

/-- Unfolding `subAll` when the pattern matches at the head. -/
theorem subAll_cons_of_pos (s r : List Char) (c : Char) (cs : List Char)
    (h : s.isPrefixOf (c :: cs) = true) :
    subAll s r (c :: cs) = r ++ subAll s r (List.drop (s.length - 1) cs) := by
  show subAllF s r (cs.length + 1) (c :: cs) = _
  rw [show subAllF s r (cs.length + 1) (c :: cs) =
        if s.isPrefixOf (c :: cs) then r ++ subAllF s r cs.length (List.drop (s.length - 1) cs)
        else c :: subAllF s r cs.length cs from rfl, if_pos h]
  unfold subAll
  rw [subAllF_congr s r cs.length (List.drop (s.length - 1) cs).length _
        (by rw [List.length_drop]; omega) (Nat.le_refl _)]

/-- Unfolding `subAll` when the pattern does not match at the head. -/
theorem subAll_cons_of_neg (s r : List Char) (c : Char) (cs : List Char)
    (h : ¬ s.isPrefixOf (c :: cs) = true) :
    subAll s r (c :: cs) = c :: subAll s r cs := by
  show subAllF s r (cs.length + 1) (c :: cs) = _
  rw [show subAllF s r (cs.length + 1) (c :: cs) =
        if s.isPrefixOf (c :: cs) then r ++ subAllF s r cs.length (List.drop (s.length - 1) cs)
        else c :: subAllF s r cs.length cs from rfl, if_neg h]
  rfl

/-- Characters different from the pattern's first character are copied
unchanged: `subAll` distributes over a free leading segment. -/
theorem subAll_append_free (s0 : Char) (z r a t : List Char)
    (ha : ∀ c ∈ a, c ≠ s0) :
    subAll (s0 :: z) r (a ++ t) = a ++ subAll (s0 :: z) r t := by
  induction a with
  | nil => rfl
  | cons c a ih =>
      have hc : c ≠ s0 := ha c (List.mem_cons_self c a)
      have hnp : ¬ (s0 :: z).isPrefixOf (c :: (a ++ t)) = true := by
        rw [List.isPrefixOf_iff_prefix]
        intro hp
        exact hc (List.cons_prefix_cons.mp hp).1.symm
      rw [List.cons_append, subAll_cons_of_neg _ _ _ _ hnp,
        ih (fun x hx => ha x (List.mem_cons_of_mem c hx))]
      rfl

/-- A list free of the pattern's first character is left unchanged. -/
theorem subAll_free_id (s0 : Char) (z r a : List Char) (ha : ∀ c ∈ a, c ≠ s0) :
    subAll (s0 :: z) r a = a := by
  have h := subAll_append_free s0 z r a [] ha
  rw [List.append_nil] at h
  rw [h, show subAll (s0 :: z) r [] = ([] : List Char) from rfl, List.append_nil]

/-- An occurrence of the (nonempty) pattern at the head is replaced and
scanning continues after it, as in `re.sub`. -/
theorem subAll_occurrence (s0 : Char) (z r t : List Char) :
    subAll (s0 :: z) r ((s0 :: z) ++ t) = r ++ subAll (s0 :: z) r t := by
  have hp : (s0 :: z).isPrefixOf (s0 :: (z ++ t)) = true := by
    rw [List.isPrefixOf_iff_prefix]
    exact List.prefix_append (s0 :: z) t
  rw [List.cons_append, subAll_cons_of_pos _ _ _ _ hp]
  congr 1
  rw [show (s0 :: z).length - 1 = z.length by simp, List.drop_left]

/-- Characters of a decimal digit are digits. -/
theorem digitChar_isDigit (d : Nat) (h : d < 10) : (digitChar d).isDigit = true := by
  interval_cases d <;> decide

/-- A digit character is not the decimal point. -/
theorem isDigit_ne_dot (c : Char) (h : c.isDigit = true) : c ≠ '.' := by
  intro e
  subst e
  exact absurd h (by decide)

/-- The digit character is `0` exactly for the digit 0. -/
theorem digitChar_eq_zero_iff (d : Nat) (h : d < 10) : digitChar d = '0' ↔ d = 0 := by
  interval_cases d <;> simp_all <;> decide

/-- Every character `natDigitsAux` produces is a digit. -/
theorem natDigitsAux_all_digits : ∀ (f n : Nat), ∀ c ∈ natDigitsAux f n, c.isDigit = true := by
  intro f
  induction f with
  | zero =>
      intro n c hc
      simp [natDigitsAux] at hc
  | succ f ih =>
      intro n c hc
      by_cases h0 : n = 0
      · subst h0
        simp [natDigitsAux] at hc
      · rw [show natDigitsAux (f + 1) n =
              if n = 0 then [] else natDigitsAux f (n / 10) ++ [digitChar (n % 10)] from rfl,
            if_neg h0] at hc
        rcases List.mem_append.mp hc with h | h
        · exact ih _ c h
        · simp at h
          subst h
          exact digitChar_isDigit _ (Nat.mod_lt _ (by norm_num))

/-- Every character of `natDigits n` is a digit. -/
theorem natDigits_all_digits (n : Nat) : ∀ c ∈ natDigits n, c.isDigit = true := by
  intro c hc
  unfold natDigits at hc
  by_cases h0 : n = 0
  · rw [if_pos h0] at hc
    simp at hc
    subst hc
    decide
  · rw [if_neg h0] at hc
    exact natDigitsAux_all_digits n n c hc

/-- Source `.replace('.00', '')` removes a terminal `.00` after digits. -/
theorem strip_dot00 (a : List Char) (ha : ∀ c ∈ a, c.isDigit = true) :
    stripZeroCents (a ++ ('.' :: '0' :: '0' :: [])) = a := by
  unfold stripZeroCents
  rw [show (['.', '0', '0'] : List Char) = '.' :: ['0', '0'] from rfl,
    subAll_append_free '.' ['0', '0'] [] a _ (fun c hc => isDigit_ne_dot c (ha c hc)),
    show subAll ('.' :: ['0', '0']) ([] : List Char) ('.' :: '0' :: '0' :: []) = [] from rfl,
    List.append_nil]

/-- Source `.replace('.00', '')` keeps a decimal part that is not `00`. -/
theorem strip_dot_keep (a : List Char) (b1 b2 : Char) (ha : ∀ c ∈ a, c.isDigit = true)
    (hb1 : b1.isDigit = true) (hb2 : b2.isDigit = true) (hne : ¬ (b1 = '0' ∧ b2 = '0')) :
    stripZeroCents (a ++ ('.' :: b1 :: b2 :: [])) = a ++ ('.' :: b1 :: b2 :: []) := by
  unfold stripZeroCents
  rw [show (['.', '0', '0'] : List Char) = '.' :: ['0', '0'] from rfl,
    subAll_append_free '.' ['0', '0'] [] a _ (fun c hc => isDigit_ne_dot c (ha c hc))]
  congr 1
  have hnp : ¬ ('.' :: ['0', '0']).isPrefixOf ('.' :: b1 :: b2 :: []) = true := by
    rw [List.isPrefixOf_iff_prefix]
    intro hp
    rcases List.cons_prefix_cons.mp hp with ⟨-, hp2⟩
    rcases List.cons_prefix_cons.mp hp2 with ⟨e1, hp3⟩
    rcases List.cons_prefix_cons.mp hp3 with ⟨e2, -⟩
    exact hne ⟨e1.symm, e2.symm⟩
  rw [subAll_cons_of_neg _ _ _ _ hnp]
  congr 1
  refine subAll_free_id '.' ['0', '0'] [] [b1, b2] ?_
  intro c hc
  rcases List.mem_cons.mp hc with h | h
  · subst h
    exact isDigit_ne_dot _ hb1
  · simp at h
    subst h
    exact isDigit_ne_dot _ hb2

/-- C4: the substituted currency text for a captured chip quantity q is the
marker `$`, the whole dollars of the rounded cents of q * 0.00001, and a
2-digit decimal part that is omitted exactly when both decimal places are
zero; in particular a q that is an exact multiple of 100000 renders with no
decimal portion, as `$` followed by q / 100000. (At the exact rounding ties
q % 1000 = 500 the model `cents` rounds half up; CPython's direction there
depends on the float bits, and the claim fixes no direction — every other q
below 3000000 was checked to match CPython exactly.) -/
theorem c4_scaling (q : Nat) :
    moneyStr q = '$' :: (natDigits (cents q / 100) ++
      (if cents q % 100 = 0 then [] else '.' :: pad2 (cents q % 100))) ∧
    (pad2 (cents q % 100)).length = 2 ∧
    (q % 100000 = 0 → moneyStr q = '$' :: natDigits (q / 100000)) := by
  have hm : cents q % 100 < 100 := Nat.mod_lt _ (by norm_num)
  have hmain : moneyStr q = '$' :: (natDigits (cents q / 100) ++
      (if cents q % 100 = 0 then [] else '.' :: pad2 (cents q % 100))) := by
    unfold moneyStr
    rw [show format2f q = natDigits (cents q / 100) ++ '.' :: pad2 (cents q % 100) from rfl]
    by_cases h0 : cents q % 100 = 0
    · rw [if_pos h0, h0, show pad2 0 = ['0', '0'] from rfl,
        show ('.' :: ['0', '0'] : List Char) = ('.' :: '0' :: '0' :: []) from rfl,
        strip_dot00 _ (natDigits_all_digits _), List.append_nil]
    · rw [if_neg h0]
      have hne : ¬ (digitChar (cents q % 100 / 10) = '0' ∧ digitChar (cents q % 100 % 10) = '0') := by
        rw [digitChar_eq_zero_iff _ (by omega),
          digitChar_eq_zero_iff _ (Nat.mod_lt _ (by norm_num))]
        omega
      rw [show pad2 (cents q % 100) =
            [digitChar (cents q % 100 / 10), digitChar (cents q % 100 % 10)] from rfl,
        show ('.' :: [digitChar (cents q % 100 / 10), digitChar (cents q % 100 % 10)] : List Char) =
            ('.' :: digitChar (cents q % 100 / 10) :: digitChar (cents q % 100 % 10) :: []) from rfl,
        strip_dot_keep _ _ _ (natDigits_all_digits _) (digitChar_isDigit _ (by omega))
          (digitChar_isDigit _ (Nat.mod_lt _ (by norm_num))) hne]
  refine ⟨hmain, rfl, ?_⟩
  intro hq
  have h0 : cents q % 100 = 0 := by
    unfold cents
    omega
  have h1 : cents q / 100 = q / 100000 := by
    unfold cents
    omega
  rw [hmain, if_pos h0, h1, List.append_nil]

/-- C4 witness: 300000 chips are an exact multiple of 100000 and render with
no decimal portion, as `$3`. -/
theorem c4_scaling_w : moneyStr 300000 = ("$3").toList := by
  have h := (c4_scaling 300000).2.2 rfl
  exact h.trans (by decide)

/-- When no captured group is a nonempty digit run, `_convert`'s loop leaves
the line unchanged. -/
theorem convertGroups_id (gs : List (List Char)) (l : List Char)
    (h : ∀ g ∈ gs, (!g.isEmpty && g.all Char.isDigit) = false) :
    convertGroups gs l = l := by
  induction gs with
  | nil => rfl
  | cons g gs ih =>
      unfold convertGroups
      rw [List.foldl_cons, if_neg (by rw [h g (List.mem_cons_self g gs)]; exact Bool.false_ne_true)]
      exact ih (fun x hx => h x (List.mem_cons_of_mem g hx))

/-- A rule with no nonempty digit capture on a line is a no-op on it. -/
theorem convert_of_noDigitCapture (ts : List RTok) (l : List Char)
    (h : noDigitCapture ts l = true) : convert ts l = l := by
  unfold convert
  unfold noDigitCapture at h
  cases hse : reSearch ts l with
  | none => rfl
  | some gs =>
      rw [hse] at h
      refine convertGroups_id gs l ?_
      intro g hg
      have hx := List.all_eq_true.mp h g hg
      revert hx
      cases (!g.isEmpty && g.all Char.isDigit) <;> simp

/-- C5 (amended): the Amount Converter is idempotent exactly on the lines
whose once-converted form gives no rule a nonempty all-digit capture; that
covers every line whose digit runs all ended up inside currency-marked
tokens, but not a line on which a rule's phrase occurs twice (see the
counterexample), where the first application leaves the second bare amount
and the second application converts it. -/
theorem c5_idem (line : List Char)
    (h : ∀ ts ∈ ruleList, noDigitCapture ts (convertLine line) = true) :
    convertLine (convertLine line) = convertLine line := by
  have key : ∀ (rs : List (List RTok)) (L : List Char),
      (∀ ts ∈ rs, noDigitCapture ts L = true) →
      rs.foldl (fun ln ts => convert ts ln) L = L := by
    intro rs
    induction rs with
    | nil => intro L _; rfl
    | cons ts rs ih =>
        intro L hL
        rw [List.foldl_cons, convert_of_noDigitCapture ts L (hL ts (List.mem_cons_self ts rs))]
        exact ih L (fun x hx => hL x (List.mem_cons_of_mem ts hx))
  exact key ruleList (convertLine line) h

/-- C5 witness: the example body line converts to `Seat 1: posts small blind
$0`, on which no rule captures digits, so a second application changes
nothing. -/
theorem c5_idem_w :
    convertLine (convertLine (("Seat 1: posts small blind 100").toList)) =
      convertLine (("Seat 1: posts small blind 100").toList) :=
  c5_idem _ (by decide)

/-- C6 (amended): end of stream yields end-of-stream unconditionally — on a
stream with no blank separator line at all, `read_hand` returns None whatever
content has accumulated, so a final block lacking a trailing blank separator
is silently dropped (and, `self._hands += 1` being unreached, not counted). -/
theorem c6_drop (stream : List (List Char))
    (h : ∀ l ∈ stream, l ≠ ("\n").toList ∧ l ≠ ("\r\n").toList) :
    ∀ text, read_hand stream text = none := by
  induction stream with
  | nil => intro text; rfl
  | cons l rest ih =>
      intro text
      unfold read_hand
      rw [if_pos (h l (List.mem_cons_self l rest))]
      exact ih (fun x hx => h x (List.mem_cons_of_mem l hx)) (text ++ l)

/-- C6 witness: a one-line stream with no blank separator yields no block. -/
theorem c6_drop_w : read_hand [("PokerStars Hand #2: y\n").toList] [] = none :=
  c6_drop _ (by decide) []

/-- C7: substitution is by value. When `_convert` captures the digit string s
on a line consisting of s at two different positions amid digit-free text,
both occurrences — not only the one at the captured position — are replaced,
with the same converted currency string. -/
theorem c7_by_value (s pre mid post : List Char) (hs : s ≠ [])
    (hd : s.all Char.isDigit = true)
    (hpre : ∀ c ∈ pre, c.isDigit = false) (hmid : ∀ c ∈ mid, c.isDigit = false)
    (hpost : ∀ c ∈ post, c.isDigit = false) :
    convertGroups [s] (pre ++ s ++ mid ++ s ++ post) =
      pre ++ moneyStr (natOfDigits s) ++ mid ++ moneyStr (natOfDigits s) ++ post := by
  obtain ⟨s0, z, rfl⟩ : ∃ s0 z, s = s0 :: z := by
    cases s with
    | nil => exact absurd rfl hs
    | cons a b => exact ⟨a, b, rfl⟩
  have hs0 : s0.isDigit = true := List.all_eq_true.mp hd s0 (List.mem_cons_self s0 z)
  have hne : ∀ (w : List Char), (∀ c ∈ w, c.isDigit = false) → ∀ c ∈ w, c ≠ s0 := by
    intro w hw c hc e
    have h1 := hw c hc
    rw [e, hs0] at h1
    exact absurd h1 (by decide)
  have hcond : (!(s0 :: z).isEmpty && (s0 :: z).all Char.isDigit) = true := by
    simp [hd]
  have hstep : convertGroups [s0 :: z] (pre ++ (s0 :: z) ++ mid ++ (s0 :: z) ++ post) =
      subAll (s0 :: z) (moneyStr (natOfDigits (s0 :: z)))
        (pre ++ (s0 :: z) ++ mid ++ (s0 :: z) ++ post) := by
    unfold convertGroups
    rw [List.foldl_cons, if_pos hcond, List.foldl_nil]
  rw [hstep]
  simp only [List.append_assoc]
  rw [subAll_append_free s0 z _ pre _ (hne pre hpre),
    subAll_occurrence, subAll_append_free s0 z _ mid _ (hne mid hmid),
    subAll_occurrence, subAll_free_id s0 z _ post (hne post hpost)]

/-- C7 witness: on `hero5000: bets 5000` the captured bet amount 5000 is also
replaced inside the player's name, both with `$0.05`. -/
theorem c7_by_value_w :
    convertGroups [("5000").toList] (("hero5000: bets 5000").toList) =
      ("hero$0.05: bets $0.05").toList := by
  have h := c7_by_value (("5000").toList) (("hero").toList) ((": bets ").toList) []
    (by decide) (by decide) (by decide) (by decide) (by decide)
  exact h.trans (by decide)

/-- Errors produced by `lineAt` are the Python `IndexError`. -/
theorem lineAt_err (text : List Char) (i : Nat) (e : PyError)
    (h : lineAt text i = Except.error e) : e = PyError.indexError := by
  unfold lineAt at h
  split at h
  · exact absurd h (by simp)
  · simp at h
    exact h.symm

/-- Every `HandError` raised by `_parse_table_header` carries the id the
caller passed, i.e. the already-extracted record identifier. -/
theorem parse_table_header_err_id (text i : List Char) (e : HandError)
    (h : parse_table_header text i = Except.error (PyError.hand e)) : e.id = i := by
  unfold parse_table_header at h
  split at h
  · rename_i e' heq
    rw [lineAt_err _ _ _ heq] at h
    exact absurd h (by simp)
  · split at h
    · split at h
      · exact absurd h (by simp)
      · simp only [Except.error.injEq, PyError.hand.injEq] at h
        rw [← h]
    · simp only [Except.error.injEq, PyError.hand.injEq] at h
      rw [← h]

/-- Every `HandError` raised by `_parse_hand_header` carries the id the
caller passed, i.e. the already-extracted record identifier. -/
theorem parse_hand_header_err_id (text i : List Char) (e : HandError)
    (h : parse_hand_header text i = Except.error (PyError.hand e)) : e.id = i := by
  unfold parse_hand_header at h
  split at h
  · rename_i e' heq
    rw [lineAt_err _ _ _ heq] at h
    exact absurd h (by simp)
  · split at h
    · split at h
      · exact absurd h (by simp)
      · simp only [Except.error.injEq, PyError.hand.injEq] at h
        rw [← h]
    · simp only [Except.error.injEq, PyError.hand.injEq] at h
      rw [← h]

/-- Every `HandError` raised by `_parse_network` carries no id. -/
theorem parse_network_err_id (text : List Char) (e : HandError)
    (h : parse_network text = Except.error (PyError.hand e)) : e.id = [] := by
  unfold parse_network at h
  split at h
  · rename_i e' heq
    rw [lineAt_err _ _ _ heq] at h
    exact absurd h (by simp)
  · split at h
    · exact absurd h (by simp)
    · simp only [Except.error.injEq, PyError.hand.injEq] at h
      rw [← h]

/-- Every `HandError` raised by `_parse_id` carries no id. -/
theorem parse_id_err_id (text : List Char) (e : HandError)
    (h : parse_id text = Except.error (PyError.hand e)) : e.id = [] := by
  unfold parse_id at h
  split at h
  · rename_i e' heq
    rw [lineAt_err _ _ _ heq] at h
    exact absurd h (by simp)
  · split at h
    · exact absurd h (by simp)
    · simp only [Except.error.injEq, PyError.hand.injEq] at h
      rw [← h]

/-- C8: failures before identifier extraction (unknown network, malformed
identifier) carry no identifier; any `HandError` escaping a block whose
network check and identifier extraction both succeeded carries exactly the
extracted identifier; and the diagnostic line has the suffixed form
`<message> -> id: <identifier>` exactly when the carried identifier is
nonempty. -/
theorem c8_error_ids (text : List Char) (e : HandError)
    (h : processHand text = Except.error (PyError.hand e)) :
    ((parse_network text = Except.error (PyError.hand e) ∨
        parse_id text = Except.error (PyError.hand e)) → e.id = []) ∧
    (∀ i, parse_network text = Except.ok Network.pokerstars →
        parse_id text = Except.ok i → e.id = i) ∧
    (handErrorStr e = e.msg ++ (" -> id: ").toList ++ e.id ↔ e.id ≠ []) := by
  refine ⟨?_, ?_, ?_⟩
  · rintro (h1 | h1)
    · exact parse_network_err_id text e h1
    · exact parse_id_err_id text e h1
  · intro i hn hi
    unfold processHand at h
    split at h
    · rename_i e' heq
      rw [hn] at heq
      exact absurd heq (by simp)
    · split at h
      · rename_i e' heq
        simp only [Except.error.injEq] at h
        rw [h] at heq
        unfold parsePS at heq
        split at heq
        · rename_i e'' heq2
          rw [hi] at heq2
          exact absurd heq2 (by simp)
        · rename_i id' heq2
          have hii : id' = i := by
            rw [hi] at heq2
            simpa using heq2.symm
          subst hii
          split at heq
          · rename_i e'' heq3
            simp only [Except.error.injEq] at heq
            rw [heq] at heq3
            exact parse_table_header_err_id text id' e heq3
          · split at heq
            · rename_i e'' heq4
              simp only [Except.error.injEq] at heq
              rw [heq] at heq4
              exact parse_hand_header_err_id text id' e heq4
            · exact absurd heq (by simp)
      · exact absurd h (by simp)
  · unfold handErrorStr
    by_cases hid : e.id = []
    · rw [if_pos hid]
      constructor
      · intro he
        exfalso
        have hlen := congrArg List.length he
        simp [hid] at hlen
      · intro hne
        exact absurd hid hne
    · rw [if_neg hid]
      exact ⟨fun _ => hid, fun _ => rfl⟩

/-- C8 witness: on a block whose id 77 parses and whose table header is junk,
the escaping error carries id 77 and the diagnostic line has the suffixed
form. -/
theorem c8_error_ids_w :
    processHand badTableBlock = Except.error (PyError.hand
      ⟨("Unable to parse table header: badtable").toList, ("77").toList⟩) ∧
    HandError.id ⟨("Unable to parse table header: badtable").toList, ("77").toList⟩ =
      ("77").toList ∧
    handErrorStr ⟨("Unable to parse table header: badtable").toList, ("77").toList⟩ =
      ("Unable to parse table header: badtable -> id: 77").toList := by
  refine ⟨rfl, ?_, ?_⟩
  · exact (c8_error_ids badTableBlock _ rfl).2.1 (("77").toList) rfl rfl
  · have h := ((c8_error_ids badTableBlock _ rfl).2.2).mpr (by decide)
    exact h.trans (by decide)

/-- The body text of a record always ends with one line break per printed
line followed by the three line breaks of `print('\n\n')`. -/
theorem printBody_suffix (bs : List (List Char)) :
    ∃ p, '\n' :: printBody bs = p ++ ("\n\n\n\n").toList := by
  induction bs with
  | nil => exact ⟨[], rfl⟩
  | cons b rest ih =>
      obtain ⟨p, hp⟩ := ih
      refine ⟨'\n' :: stripChars (convertLine b) ++ p, ?_⟩
      show '\n' :: (stripChars (convertLine b) ++ '\n' :: printBody rest) = _
      rw [hp]
      simp

/-- C9 (amended): the emitted text of every successfully processed record
ends in four consecutive line breaks (the final printed line's break plus the
three of the `print('\n\n')` terminator), i.e. each record is followed by
three blank lines, not by the single blank separator line the claim states. -/
theorem c9_separator (h : PSHand) (text : List Char) :
    ∃ p, printHand h text = p ++ ("\n\n\n\n").toList := by
  obtain ⟨p, hp⟩ := printBody_suffix ((ioLines text).drop 2)
  unfold printHand
  rw [hp]
  refine ⟨("PokerStars Hand #").toList ++ h.id ++ (":  Hold'em ").toList ++ h.game_type ++
      (" ($").toList ++ h.sb ++ ("/$").toList ++ h.bb ++ (" USD) - ").toList ++
      h.date_time_stamp ++
      '\n' :: (("Table '").toList ++ h.table_name ++ ("' ").toList ++ h.table_size ++
        (" Seat #").toList ++ h.btn ++ (" is the button").toList ++ p), ?_⟩
  simp

/-- Table-header failure messages never have a hand-header failure prefix:
the game-type message starts `Game` and the two messages share only the
prefix `Unable to parse `. -/
theorem isHandHeaderErr_table1 (t : List Char) :
    isHandHeaderErr (("Unable to parse table header: ").toList ++ t) = false := rfl

/-- Play-money mismatch messages never have a hand-header failure prefix. -/
theorem isHandHeaderErr_table2 (t : List Char) :
    isHandHeaderErr (("Unknown play money table header: ").toList ++ t) = false := rfl

/-- The message of every `HandError` raised by `_parse_table_header` is one of
its two messages, each prefixing the offending line. -/
theorem parse_table_header_err_msg (text i : List Char) (e : HandError)
    (h : parse_table_header text i = Except.error (PyError.hand e)) :
    ∃ line, e.msg = ("Unknown play money table header: ").toList ++ line ∨
      e.msg = ("Unable to parse table header: ").toList ++ line := by
  unfold parse_table_header at h
  split at h
  · rename_i e' heq
    rw [lineAt_err _ _ _ heq] at h
    exact absurd h (by simp)
  · rename_i line heq
    split at h
    · split at h
      · exact absurd h (by simp)
      · simp only [Except.error.injEq, PyError.hand.injEq] at h
        exact ⟨line, Or.inl (by rw [← h])⟩
    · simp only [Except.error.injEq, PyError.hand.injEq] at h
      exact ⟨line, Or.inr (by rw [← h])⟩

/-- C10: `parse` validates the identifier (line 0), then the table header
(line 1), then the stakes and game type (line 0). Once the identifier parses:
any table-header failure is the error `parse` reports, whatever the state of
line 0's stake or game-variant pattern; and a game-type or stake/timestamp
failure can only be reported on a block whose line 1 already parsed as a Play
Money table. -/
theorem c10_precedence (text i : List Char) (hid : parse_id text = Except.ok i) :
    (∀ e, parse_table_header text i = Except.error e → parsePS text = Except.error e) ∧
    (∀ e, parsePS text = Except.error (PyError.hand e) → isHandHeaderErr e.msg = true →
      ∃ r, parse_table_header text i = Except.ok r) := by
  constructor
  · intro e he
    simp [parsePS, hid, he]
  · intro e he hh
    rcases htab : parse_table_header text i with e' | r
    · have h1 : parsePS text = Except.error e' := by simp [parsePS, hid, htab]
      have h2 := he.symm.trans h1
      simp only [Except.error.injEq] at h2
      rw [← h2] at htab
      obtain ⟨line, hmsg | hmsg⟩ := parse_table_header_err_msg text i e htab
      · rw [hmsg, isHandHeaderErr_table2] at hh
        exact absurd hh (by simp)
      · rw [hmsg, isHandHeaderErr_table1] at hh
        exact absurd hh (by simp)
    · exact ⟨r, rfl⟩

/-- C10 witness: on the block whose line 1 is junk and whose line 0 also
fails the stake pattern, the reported error is the table-header one. -/
theorem c10_precedence_w :
    parsePS junkBlock = Except.error (PyError.hand
      ⟨("Unable to parse table header: junk").toList, ("7").toList⟩) :=
  (c10_precedence junkBlock (("7").toList) rfl).1 _ rfl

end Pspmhhc
